import Mathlib

/-!
Verification of the simplified spaced-repetition system in `srs_api.py`.

The core transition engine `calculate_srs_logic` is embedded over exact
rationals (`ℚ`); Python's `round(x, n)` is modelled as round-half-to-even
at the given decimal position, and Python's one-argument `round` as
round-half-to-even to an integer.  Validation failures (Python
`ValueError`) are modelled with `Except String`.  Calendar dates are
modelled by their proleptic-Gregorian ordinal, mirroring
`datetime.date.toordinal`, with `timedelta` addition as ordinal addition.
-/

namespace SrsApi

/-- Configuration constant `FACTOR_MODIFIER = 0.15` from the source. -/
def FACTOR_MODIFIER : ℚ := 0.15

/-- Configuration constant `HARD_FACTOR = 1.2` from the source. -/
def HARD_FACTOR : ℚ := 1.2

/-- Configuration constant `MIN_FACTOR = 1.30` from the source. -/
def MIN_FACTOR : ℚ := 1.30

/-- Configuration constant `DEFAULT_INITIAL_FACTOR = 2.50` from the source. -/
def DEFAULT_INITIAL_FACTOR : ℚ := 2.50

/-- Configuration constant `DEFAULT_INITIAL_INTERVAL = 0.0` from the source. -/
def DEFAULT_INITIAL_INTERVAL : ℚ := 0.0

/-- Python's one-argument `round`: nearest integer, ties to even. -/
def roundHalfEven (q : ℚ) : ℤ :=
  let fl := ⌊q⌋
  let r := q - fl
  if r < 1/2 then fl
  else if 1/2 < r then fl + 1
  else if 2 ∣ fl then fl else fl + 1

/-- Python's `round(x, 2)`: round to the nearest multiple of `1/100`,
ties to even. -/
def round2 (q : ℚ) : ℚ := (roundHalfEven (q * 100) : ℚ) / 100

/-- Embedding of `calculate_srs_logic(current_interval_days,
current_factor, signal)` from `srs_api.py` lines 31-64.  The two mutable
locals `new_interval` and `new_factor` of the Python body are rendered as
one `if`-chain each over the (mutually exclusive) signal branches; a
`ValueError` raise is an `Except.error` carrying the source's message. -/
def calculate_srs_logic (current_interval_days current_factor : ℚ)
    (signal : ℤ) : Except String (ℚ × ℚ) :=
  if ¬ (0 ≤ signal ∧ signal ≤ 4) then
    .error "Internal Logic Error: Signal must be an integer between 0 and 4."
  else if current_factor ≤ 0 then
    .error "Current factor must be greater than 0."
  else if current_interval_days < 0 then
    .error "Current interval days cannot be negative."
  else
    let new_interval : ℚ :=
      if signal = 0 then current_interval_days
      else if signal = 1 then 0
      else if signal = 2 then current_interval_days * HARD_FACTOR
      else if signal = 3 then
        (if current_interval_days < 1 then 1.0
         else current_interval_days * current_factor)
      else
        (if current_interval_days < 1 then max 1.0 (1.0 * current_factor)
         else current_interval_days * current_factor)
    let new_factor : ℚ :=
      if signal = 0 then current_factor
      else if signal = 1 then max MIN_FACTOR (current_factor - 0.20)
      else if signal = 2 then max MIN_FACTOR (current_factor - FACTOR_MODIFIER)
      else if signal = 3 then current_factor
      else current_factor + FACTOR_MODIFIER
    .ok (round2 (max 0 new_interval), round2 new_factor)

/-- A calendar date, identified by its proleptic-Gregorian ordinal as in
`datetime.date.toordinal` (day 1 = 0001-01-01). -/
structure Date where
  ordinal : ℤ
deriving DecidableEq

/-- `date + timedelta(days=n)` from the endpoint. -/
def addDays (d : Date) (n : ℤ) : Date := ⟨d.ordinal + n⟩

/-- The date-resolution step of the endpoint (`srs_api.py` lines 133-134):
`days_to_add = round(new_interval_days)` followed by
`datetime.date.today() + datetime.timedelta(days=days_to_add)`, with
`today` passed explicitly. -/
def resolveNextDate (new_interval_days : ℚ) (today : Date) : Date :=
  addDays today (roundHalfEven new_interval_days)

/-- The signal bound of the Pydantic input model `SRSInput`
(`signal: int = Field(..., ge=1, le=4)`, `srs_api.py` line 27). -/
def srsInputSignalValid (signal : ℤ) : Bool :=
  decide (1 ≤ signal) && decide (signal ≤ 4)

/-- The whitespace class of Python's `\s` (ASCII part):
space, tab, newline, carriage return, vertical tab, form feed. -/
def isSpaceChar (c : Char) : Bool :=
  c == ' ' || c == '\t' || c == '\n' || c == '\r' || c == '\x0b' || c == '\x0c'

/-- Match `[A-Za-z]{3}`: exactly three ASCII letters. -/
def matchAlpha3 : List Char → Option (List Char)
  | a :: b :: c :: rest =>
      if a.isAlpha && b.isAlpha && c.isAlpha then some rest else none
  | _ => none

/-- Match one literal character. -/
def matchLit (c : Char) : List Char → Option (List Char)
  | x :: rest => if x == c then some rest else none
  | [] => none

/-- Match `\s+`: at least one whitespace character, greedily. -/
def matchSpaces1 : List Char → Option (List Char)
  | x :: rest =>
      if isSpaceChar x then some (rest.dropWhile isSpaceChar) else none
  | [] => none

/-- Decimal digit run read as a natural number (as Python `float` does for
the integral and fractional digit groups). -/
def digitsToNat (l : List Char) : ℕ :=
  l.foldl (fun n c => 10 * n + (c.toNat - 48)) 0

/-- Match `\d+\.\d+` and convert the captured group with Python's
`float(...)`, which is exact decimal here, modelled in `ℚ`. -/
def matchFloatGroup (l : List Char) : Option (ℚ × List Char) :=
  let ip := l.takeWhile Char.isDigit
  let r1 := l.dropWhile Char.isDigit
  if ip.isEmpty then none else
  match r1 with
  | '.' :: r2 =>
      let fp := r2.takeWhile Char.isDigit
      let r3 := r2.dropWhile Char.isDigit
      if fp.isEmpty then none
      else some ((digitsToNat ip : ℚ) + (digitsToNat fp : ℚ) / 10 ^ fp.length, r3)
  | _ => none

/-- `SRS_STRING_PATTERN.match` followed by `float` conversion of groups 4
and 5 (`srs_api.py` lines 75-77 and 110-116): anchored match of
`([A-Za-z]{3}),\s*([A-Za-z]{3})\s+(\d{1,2})\s+(\d+\.\d+)/(\d+\.\d+)`,
returning `(factor, interval)`.  The pattern is deterministic: each
quantified class is disjoint from what must follow it, so greedy matching
without backtracking is equivalent. -/
def parseSrsString (s : String) : Option (ℚ × ℚ) := do
  let r1 ← matchAlpha3 s.toList
  let r2 ← matchLit ',' r1
  let r3 := r2.dropWhile isSpaceChar
  let r4 ← matchAlpha3 r3
  let r5 ← matchSpaces1 r4
  let ds := r5.takeWhile Char.isDigit
  let r6 := r5.dropWhile Char.isDigit
  if ds.length = 0 ∨ 2 < ds.length then none else do
  let r7 ← matchSpaces1 r6
  let (factor, r8) ← matchFloatGroup r7
  let r9 ← matchLit '/' r8
  let (interval, r10) ← matchFloatGroup r9
  if r10 = [] then some (factor, interval) else none

/-- The state-resolution step of the endpoint (`srs_api.py` lines 98-124):
Python's `if input_data.srs:` is truthiness, so both `None` and the empty
string take the defaults branch; a non-empty string must match the
pattern or the endpoint raises HTTP 400.  Returns
`(current_factor, current_interval_days)`. -/
def resolveCurrentState : Option String → Except String (ℚ × ℚ)
  | some s =>
      if s == "" then .ok (DEFAULT_INITIAL_FACTOR, DEFAULT_INITIAL_INTERVAL)
      else
        match parseSrsString s with
        | some p => .ok p
        | none => .error "Invalid srs string format in JSON."
  | none => .ok (DEFAULT_INITIAL_FACTOR, DEFAULT_INITIAL_INTERVAL)

/-! ### Helper lemmas about rounding -/

/-- Rounding to the nearest integer never goes below the floor. -/
lemma floor_le_roundHalfEven (q : ℚ) : ⌊q⌋ ≤ roundHalfEven q := by
  simp only [roundHalfEven]
  split_ifs <;> omega

/-- A hundredth-scale lower bound survives `round2`. -/
lemma le_round2_of_le {m : ℤ} {q : ℚ} (h : (m : ℚ) / 100 ≤ q) :
    (m : ℚ) / 100 ≤ round2 q := by
  have h1 : (m : ℚ) ≤ q * 100 := by linarith
  have h2 : m ≤ ⌊q * 100⌋ := Int.le_floor.mpr h1
  have h3 : m ≤ roundHalfEven (q * 100) :=
    le_trans h2 (floor_le_roundHalfEven _)
  have h4 : (m : ℚ) ≤ (roundHalfEven (q * 100) : ℚ) :=
    Int.cast_le.mpr h3
  unfold round2
  linarith

/-- `round2` preserves non-negativity. -/
lemma round2_nonneg {q : ℚ} (h : 0 ≤ q) : 0 ≤ round2 q := by
  have := le_round2_of_le (m := 0) (q := q) (by simpa using h)
  simpa using this

/-- Rounding an exact half to the nearest integer picks the even
neighbour (Python banker's rounding). -/
lemma roundHalfEven_int_add_half (z : ℤ) :
    roundHalfEven ((z : ℚ) + 1/2) = if 2 ∣ z then z else z + 1 := by
  have hfl : ⌊(z : ℚ) + 1/2⌋ = z := by
    rw [Int.floor_int_add]
    norm_num
  have hr : (z : ℚ) + 1/2 - (z : ℚ) = 1/2 := by ring
  simp only [roundHalfEven, hfl, hr]
  norm_num

/-! ### Claims -/

/-- C1 counterexample: the transition on a new item with easy recall does
not return interval `1.0` — `calculate_srs_logic(0.0, 2.50, 4)` has
interval `max(1.0, 1.0 × 2.50) = 2.50`. -/
theorem transition_easy_new_item_ne_spec_pair :
    calculate_srs_logic 0 2.50 4 ≠ Except.ok (1, 2.65) := by
  norm_num [calculate_srs_logic, round2, roundHalfEven, FACTOR_MODIFIER]

/-- C1 (amended): `calculate_srs_logic(0.0, 2.50, 4) = (2.5, 2.65)` — the
new interval is `max(1.0, 1.0 × 2.50) = 2.50` (pre-update factor), the
new factor is `2.50 + 0.15 = 2.65`. -/
theorem transition_easy_new_item_eval :
    calculate_srs_logic 0 2.50 4 = Except.ok (2.5, 2.65) := by
  norm_num [calculate_srs_logic, round2, roundHalfEven, FACTOR_MODIFIER]

/-- C2 counterexample: signal 0 is not the identity on all valid inputs —
the always-applied two-decimal rounding maps interval `0.123` to `0.12`. -/
theorem transition_signal0_not_identity :
    calculate_srs_logic (123/1000) 2.5 0 ≠ Except.ok (123/1000, 2.5) := by
  norm_num [calculate_srs_logic, round2, roundHalfEven]

/-- C2 (amended): signal 0 leaves the state unchanged up to the
always-applied two-decimal rounding, `transition(i, f, 0) =
(round2 i, round2 f)`; it is the exact identity on inputs already at
two-decimal precision. -/
theorem transition_signal0_rounds (i f : ℚ) (hi : 0 ≤ i) (hf : 0 < f) :
    calculate_srs_logic i f 0 = Except.ok (round2 i, round2 f) ∧
      (round2 i = i → round2 f = f →
        calculate_srs_logic i f 0 = Except.ok (i, f)) := by
  have h : calculate_srs_logic i f 0 = Except.ok (round2 i, round2 f) := by
    simp only [calculate_srs_logic]
    rw [if_neg (by norm_num), if_neg (not_le.mpr hf), if_neg (not_lt.mpr hi)]
    simp [max_eq_right hi]
  refine ⟨h, fun h1 h2 => ?_⟩
  rw [h, h1, h2]

/-- C2 witness: the amended signal-0 statement at interval `0`, factor
`2.5`, both already at two-decimal precision. -/
theorem transition_signal0_rounds_witness :
    calculate_srs_logic 0 2.5 0 = Except.ok (0, 2.5) :=
  (transition_signal0_rounds 0 2.5 (by norm_num) (by norm_num)).2
    (by norm_num [round2, roundHalfEven])
    (by norm_num [round2, roundHalfEven])

/-- Closed form of the engine on signal 1. -/
lemma calc_signal1 (i f : ℚ) (hi : 0 ≤ i) (hf : 0 < f) :
    calculate_srs_logic i f 1 =
      Except.ok (0, round2 (max MIN_FACTOR (f - 0.20))) := by
  simp only [calculate_srs_logic]
  rw [if_neg (by norm_num), if_neg (not_le.mpr hf), if_neg (not_lt.mpr hi)]
  norm_num [round2, roundHalfEven]

/-- Closed form of the engine on signal 2. -/
lemma calc_signal2 (i f : ℚ) (hi : 0 ≤ i) (hf : 0 < f) :
    calculate_srs_logic i f 2 =
      Except.ok (round2 (i * HARD_FACTOR),
        round2 (max MIN_FACTOR (f - FACTOR_MODIFIER))) := by
  have hnn : (0 : ℚ) ≤ i * HARD_FACTOR :=
    mul_nonneg hi (by norm_num [HARD_FACTOR])
  simp only [calculate_srs_logic]
  rw [if_neg (by norm_num), if_neg (not_le.mpr hf), if_neg (not_lt.mpr hi)]
  norm_num [max_eq_right hnn]

/-- C3: on signal 4 the engine uses the pre-update factor for the
interval: the new interval is `round2 (interval × factor)` when
`interval ≥ 1` and `round2 (max 1 factor)` otherwise, with `factor` the
input (pre-`+0.15`) factor, while the returned factor is
`round2 (factor + 0.15)`. -/
theorem signal4_uses_pre_update_factor (i f : ℚ) (hi : 0 ≤ i) (hf : 0 < f) :
    calculate_srs_logic i f 4 =
      Except.ok (round2 (if i < 1 then max 1 f else i * f),
        round2 (f + FACTOR_MODIFIER)) := by
  have hmax : max 0 (if i < 1 then max (1 : ℚ) f else i * f)
      = if i < 1 then max 1 f else i * f := by
    split_ifs with h
    · exact max_eq_right (le_trans zero_le_one (le_max_left 1 f))
    · exact max_eq_right (mul_nonneg hi hf.le)
  simp only [calculate_srs_logic]
  rw [if_neg (by norm_num), if_neg (not_le.mpr hf), if_neg (not_lt.mpr hi)]
  norm_num [hmax]

/-- C3 witness: at interval `2`, factor `2`, signal 4 the result is
`(round2 (2 × 2), round2 (2 + 0.15)) = (4, 2.15)`. -/
theorem signal4_uses_pre_update_factor_witness :
    calculate_srs_logic 2 2 4 = Except.ok (4, 2.15) := by
  have h := signal4_uses_pre_update_factor 2 2 (by norm_num) (by norm_num)
  rw [h]
  norm_num [round2, roundHalfEven, FACTOR_MODIFIER]

/-- C4: the engine fails exactly on invalid inputs — the result is an
error if and only if the signal is outside `{0,…,4}`, the factor is
`≤ 0`, or the interval is negative. -/
theorem calculate_srs_logic_error_iff (i f : ℚ) (s : ℤ) :
    (calculate_srs_logic i f s).isOk = false ↔
      (s < 0 ∨ 4 < s ∨ f ≤ 0 ∨ i < 0) := by
  by_cases hs : 0 ≤ s ∧ s ≤ 4
  · by_cases hf : f ≤ 0
    · have he : (calculate_srs_logic i f s).isOk = false := by
        simp only [calculate_srs_logic]
        rw [if_neg (not_not.mpr hs), if_pos hf]
        rfl
      rw [he]
      simp
      tauto
    · by_cases hi : i < 0
      · have he : (calculate_srs_logic i f s).isOk = false := by
          simp only [calculate_srs_logic]
          rw [if_neg (not_not.mpr hs), if_neg hf, if_pos hi]
          rfl
        rw [he]
        simp
        tauto
      · have he : (calculate_srs_logic i f s).isOk = true := by
          simp only [calculate_srs_logic]
          rw [if_neg (not_not.mpr hs), if_neg hf, if_neg hi]
          rfl
        have hgoal : ¬(s < 0 ∨ 4 < s ∨ f ≤ 0 ∨ i < 0) := by
          push_neg
          exact ⟨by omega, by omega, lt_of_not_le hf, le_of_not_lt hi⟩
        rw [he]
        simpa using hgoal
  · have he : (calculate_srs_logic i f s).isOk = false := by
      simp only [calculate_srs_logic]
      rw [if_pos hs]
      rfl
    rw [he]
    simp
    have : s < 0 ∨ 4 < s := by omega
    tauto

/-- C5: factor floor — on signals 1 and 2 the returned factor is at least
`MIN_FACTOR = 1.30`, and at the boundary `factor = 1.30`, signal 2
returns factor exactly `1.30`. -/
theorem factor_floor :
    (∀ (i f : ℚ) (s : ℤ), 0 ≤ i → 0 < f → s = 1 ∨ s = 2 →
      ∀ p : ℚ × ℚ, calculate_srs_logic i f s = Except.ok p →
        MIN_FACTOR ≤ p.2) ∧
    (∀ i : ℚ, 0 ≤ i →
      calculate_srs_logic i MIN_FACTOR 2 =
        Except.ok (round2 (i * HARD_FACTOR), MIN_FACTOR)) := by
  have key : ∀ x : ℚ, MIN_FACTOR ≤ round2 (max MIN_FACTOR x) := by
    intro x
    have h1 : ((130 : ℤ) : ℚ) / 100 ≤ max MIN_FACTOR x := by
      have he : ((130 : ℤ) : ℚ) / 100 = MIN_FACTOR := by norm_num [MIN_FACTOR]
      rw [he]
      exact le_max_left _ _
    have h2 := le_round2_of_le h1
    have he : ((130 : ℤ) : ℚ) / 100 = MIN_FACTOR := by norm_num [MIN_FACTOR]
    rw [he] at h2
    exact h2
  constructor
  · intro i f s hi hf hs p hp
    rcases hs with rfl | rfl
    · rw [calc_signal1 i f hi hf] at hp
      rw [← Except.ok.inj hp]
      exact key _
    · rw [calc_signal2 i f hi hf] at hp
      rw [← Except.ok.inj hp]
      exact key _
  · intro i hi
    rw [calc_signal2 i MIN_FACTOR hi (by norm_num [MIN_FACTOR])]
    have hm : max MIN_FACTOR (MIN_FACTOR - FACTOR_MODIFIER) = MIN_FACTOR :=
      max_eq_left (by norm_num [MIN_FACTOR, FACTOR_MODIFIER])
    rw [hm]
    norm_num [round2, roundHalfEven, MIN_FACTOR]

/-- C5 witness: at interval `2`, factor `1.4`, signal 2 the returned
factor `1.30` satisfies the floor. -/
theorem factor_floor_witness :
    MIN_FACTOR ≤ (((12 : ℚ)/5, (13 : ℚ)/10)).2 :=
  factor_floor.1 2 (7/5) 2 (by norm_num) (by norm_num) (Or.inr rfl)
    ((12 : ℚ)/5, (13 : ℚ)/10)
    (by norm_num [calculate_srs_logic, round2, roundHalfEven,
      FACTOR_MODIFIER, MIN_FACTOR, HARD_FACTOR])

/-- C6: non-negativity — on every valid input the returned interval is
`≥ 0` (the engine clamps with `max 0` before rounding). -/
theorem interval_nonneg (i f : ℚ) (s : ℤ) (hi : 0 ≤ i) (hf : 0 < f)
    (hs0 : 0 ≤ s) (hs4 : s ≤ 4) :
    ∀ p : ℚ × ℚ, calculate_srs_logic i f s = Except.ok p → 0 ≤ p.1 := by
  intro p hp
  simp only [calculate_srs_logic] at hp
  rw [if_neg (not_not.mpr ⟨hs0, hs4⟩), if_neg (not_le.mpr hf),
    if_neg (not_lt.mpr hi)] at hp
  rw [← Except.ok.inj hp]
  exact round2_nonneg (le_max_left 0 _)

/-- C6 witness: at interval `0`, factor `2.5`, signal 4 the returned
interval `2.5` is non-negative. -/
theorem interval_nonneg_witness : (0 : ℚ) ≤ (((5 : ℚ)/2, (53 : ℚ)/20)).1 :=
  interval_nonneg 0 (5/2) 4 (by norm_num) (by norm_num) (by norm_num)
    (by norm_num) ((5 : ℚ)/2, (53 : ℚ)/20)
    (by norm_num [calculate_srs_logic, round2, roundHalfEven, FACTOR_MODIFIER])

/-- C7: a new interval of `0.0` resolves to `today` itself — the day
count `round(0.0) = 0` is added, so the next review date is the same
day. -/
theorem resolveNextDate_zero (today : Date) : resolveNextDate 0 today = today := by
  have h0 : roundHalfEven 0 = 0 := by norm_num [roundHalfEven]
  obtain ⟨o⟩ := today
  simp [resolveNextDate, addDays, h0]

/-- C8: the Pydantic input model accepts exactly the signals `1..4`, so a
request with signal `0` (or any value outside `1..4`) is rejected by
input validation, even though `calculate_srs_logic` itself accepts
signal `0` on otherwise-valid state (here the new-item defaults). -/
theorem endpoint_signal_validation :
    (∀ s : ℤ, srsInputSignalValid s = true ↔ (1 ≤ s ∧ s ≤ 4)) ∧
    srsInputSignalValid 0 = false ∧
    (calculate_srs_logic DEFAULT_INITIAL_INTERVAL DEFAULT_INITIAL_FACTOR 0).isOk
      = true := by
  refine ⟨fun s => ?_, by decide, ?_⟩
  · simp [srsInputSignalValid]
  · norm_num [calculate_srs_logic, DEFAULT_INITIAL_INTERVAL,
      DEFAULT_INITIAL_FACTOR]
    rfl

/-- C9: the day count is obtained by round-half-to-even — an interval
exactly halfway between two whole numbers adds the even neighbour as the
day count (so `0.5` adds `0` days and `1.5` adds `2` days). -/
theorem resolveNextDate_half_even (k : ℕ) (today : Date) :
    resolveNextDate ((k : ℚ) + 1/2) today =
      addDays today (if 2 ∣ (k : ℤ) then (k : ℤ) else (k : ℤ) + 1) := by
  have h := roundHalfEven_int_add_half (k : ℤ)
  have hc : ((k : ℚ) + 1/2) = (((k : ℤ) : ℚ) + 1/2) := by push_cast; ring
  simp only [resolveNextDate, hc, h]

/-- C10: a request whose `srs` field is the empty string takes the same
defaults branch as an absent `srs` (Python truthiness), yielding factor
`2.50` and interval `0.0`, even though the empty string does not match
the `srs` pattern. -/
theorem empty_srs_uses_defaults :
    resolveCurrentState (some "") = resolveCurrentState none ∧
    resolveCurrentState (some "") =
      Except.ok (DEFAULT_INITIAL_FACTOR, DEFAULT_INITIAL_INTERVAL) ∧
    parseSrsString "" = none :=
  ⟨rfl, rfl, rfl⟩

end SrsApi
